import Mathlib

/-!
Verification of the file-vault frontend (Next.js API proxy routes, client
library and React pages) and of the spec-described backend pipeline.

Frontend code is embedded from the TypeScript sources; the FastAPI backend
(redaction pipeline, state machine) is not in the repository snapshot, so the
pieces of it that claims need are modelled from the specification, each marked
`Modelled from the spec:` in its doc comment.
-/

namespace FileVault

/-- JS truthiness of `session?.user?.email`: the check fails when the session
is absent, the email is absent, or the email is the empty string. -/
def sessionAuthed (sess : Option (Option String)) : Bool :=
  match sess with
  | none => false
  | some none => false
  | some (some e) => e ≠ ""

/-- `const BACKEND_URL = process.env.BACKEND_API_URL || "http://localhost:8000"`
(the default; the env var is deployment configuration). -/
def BACKEND_URL : String := "http://localhost:8000"

/-- One `fetch` issued to the backend (or to storage) by a route handler. -/
structure BackendRequest where
  method : String
  url : String
  body : Option String
  deriving DecidableEq, Repr

/-- JSON body of a backend response: FastAPI's `detail` field, an optional
human message field, and the rest of the payload abstracted as a string. -/
structure BackendBody where
  detail : Option String
  message : Option String
  payload : String
  deriving DecidableEq, Repr

/-- A backend HTTP response. -/
structure HttpResponse where
  status : Nat
  body : BackendBody
  deriving DecidableEq, Repr

/-- `response.ok`: status in the 200-299 range. -/
def respOk (r : HttpResponse) : Bool := 200 ≤ r.status && r.status < 300

/-- Body of a response produced by a Next.js route handler:
either `NextResponse.json({error: ...})`, the backend body passed through
with `NextResponse.json(data)`, or raw PDF bytes. -/
inductive RespBody where
  | errJson (msg : String)
  | passthrough (b : BackendBody)
  | pdfBytes (sizeBytes : Nat)
  deriving DecidableEq, Repr

/-- The human-readable message carried by a handler response body, if any. -/
def bodyMessage : RespBody → Option String
  | .errJson m => some m
  | .passthrough b => b.detail.orElse (fun _ => b.message)
  | .pdfBytes _ => none

/-- A route handler response. -/
structure RouteResponse where
  status : Nat
  body : RespBody
  deriving DecidableEq, Repr

/-- Outcome of running one route handler: the response it returns and the
list of `fetch` calls it performed, in order. -/
structure RouteResult where
  response : RouteResponse
  calls : List BackendRequest
  deriving DecidableEq, Repr

/-! ### UploadZone.tsx -/

/-- A file chosen in the upload zone: its MIME `type` and `size` in bytes. -/
structure JsFile where
  type : String
  size : Nat
  deriving DecidableEq, Repr

/-- `const ALLOWED_TYPES = ['application/pdf', 'image/jpeg', 'image/jpg', 'image/png']`. -/
def ALLOWED_TYPES : List String :=
  ["application/pdf", "image/jpeg", "image/jpg", "image/png"]

/-- `const MAX_FILE_SIZE = 10 * 1024 * 1024`. -/
def MAX_FILE_SIZE : Nat := 10 * 1024 * 1024

/-- `validateFile` from `UploadZone.tsx`: type check first, then size check. -/
def validateFile (f : JsFile) : Option String :=
  if ¬ ALLOWED_TYPES.contains f.type then
    some "Invalid file type. Only PDF, JPG, and PNG files are allowed."
  else if f.size > MAX_FILE_SIZE then
    some "File too large. Maximum size is 10MB."
  else
    none

/-- What `handleFileUpload` does with a chosen file before any network
activity: show a toast error, or call `uploadDocument(file)`. -/
inductive UploadAction where
  | showError (msg : String)
  | upload (f : JsFile)
  deriving DecidableEq, Repr

/-- `handleFileUpload` from `UploadZone.tsx` (the validation gate; the
subsequent redaction polling does not issue further uploads). -/
def handleFileUpload (f : JsFile) : UploadAction :=
  match validateFile f with
  | some e => .showError e
  | none => .upload f

/-- Number of upload requests (`uploadDocument` calls) an action issues. -/
def uploadRequestCount : UploadAction → Nat
  | .showError _ => 0
  | .upload _ => 1

/-! ### Next.js API proxy routes -/

/-- JS `a || b` on an optional string: the default is used when the value is
absent or empty. -/
def jsOr (a : Option String) (b : String) : String :=
  match a with
  | some s => if s = "" then b else s
  | none => b

/-- `POST /api/upload` (upload proxy): auth guard, rate limit, then one
forwarded `POST` of the form data to `BACKEND_URL/upload/`. -/
def uploadPOST (sess : Option (Option String)) (rateOk : Bool) (form : String)
    (fetchFn : BackendRequest → HttpResponse) : RouteResult :=
  if ¬ sessionAuthed sess then
    ⟨⟨401, .errJson "Unauthorized"⟩, []⟩
  else if ¬ rateOk then
    ⟨⟨429, .errJson "Too many upload requests. Please try again later."⟩, []⟩
  else
    let req : BackendRequest := ⟨"POST", BACKEND_URL ++ "/upload/", some form⟩
    let resp := fetchFn req
    if ¬ respOk resp then
      ⟨⟨resp.status, .errJson (jsOr resp.body.detail "Upload failed")⟩, [req]⟩
    else
      ⟨⟨200, .passthrough resp.body⟩, [req]⟩

/-- `GET /api/documents/[id]`: auth guard, then one forwarded `GET` to
`BACKEND_URL/documents/{id}`. -/
def documentsIdGET (sess : Option (Option String)) (id : String)
    (fetchFn : BackendRequest → HttpResponse) : RouteResult :=
  if ¬ sessionAuthed sess then
    ⟨⟨401, .errJson "Unauthorized"⟩, []⟩
  else
    let req : BackendRequest := ⟨"GET", BACKEND_URL ++ "/documents/" ++ id, none⟩
    let resp := fetchFn req
    if ¬ respOk resp then
      ⟨⟨resp.status, .errJson (jsOr resp.body.detail "Failed to fetch document")⟩, [req]⟩
    else
      ⟨⟨200, .passthrough resp.body⟩, [req]⟩

/-- `DELETE /api/documents/[id]`: auth guard, then one forwarded `DELETE`. -/
def documentsIdDELETE (sess : Option (Option String)) (id : String)
    (fetchFn : BackendRequest → HttpResponse) : RouteResult :=
  if ¬ sessionAuthed sess then
    ⟨⟨401, .errJson "Unauthorized"⟩, []⟩
  else
    let req : BackendRequest := ⟨"DELETE", BACKEND_URL ++ "/documents/" ++ id, none⟩
    let resp := fetchFn req
    if ¬ respOk resp then
      ⟨⟨resp.status, .errJson (jsOr resp.body.detail "Failed to delete document")⟩, [req]⟩
    else
      ⟨⟨200, .passthrough resp.body⟩, [req]⟩

/-- The approve proxy `POST` (Document Approval API Route): auth guard, rate
limit, then one forwarded `POST` to `BACKEND_URL/approval/{id}/approve`; the
backend body and status code are returned verbatim
(`NextResponse.json(data, { status: response.status })`). -/
def approveProxyPOST (sess : Option (Option String)) (rateOk : Bool) (id : String)
    (fetchFn : BackendRequest → HttpResponse) : RouteResult :=
  if ¬ sessionAuthed sess then
    ⟨⟨401, .errJson "Unauthorized - Please sign in"⟩, []⟩
  else if ¬ rateOk then
    ⟨⟨429, .errJson "Too many requests. Please try again later."⟩, []⟩
  else
    let req : BackendRequest := ⟨"POST", BACKEND_URL ++ "/approval/" ++ id ++ "/approve", none⟩
    let resp := fetchFn req
    ⟨⟨resp.status, .passthrough resp.body⟩, [req]⟩

/-- `POST /api/approval/reject/[id]` (the route file mounted at the URL that
`rejectDocument` fetches): auth guard, then one forwarded `POST` to
`BACKEND_URL/approval/reject/{id}` with no request body. -/
def rejectProxyPOST (sess : Option (Option String)) (id : String)
    (fetchFn : BackendRequest → HttpResponse) : RouteResult :=
  if ¬ sessionAuthed sess then
    ⟨⟨401, .errJson "Unauthorized"⟩, []⟩
  else
    let req : BackendRequest := ⟨"POST", BACKEND_URL ++ "/approval/reject/" ++ id, none⟩
    let resp := fetchFn req
    if ¬ respOk resp then
      ⟨⟨resp.status, .errJson (jsOr resp.body.detail "Failed to reject document")⟩, [req]⟩
    else
      ⟨⟨200, .passthrough resp.body⟩, [req]⟩

/-- The JSON body the validated reject proxy reads: `request.json()` may
throw (no JSON body), parse a body with an optional `reason`, or parse a
body that fails the zod schema for another reason. -/
inductive RejectReqBody where
  | notJson
  | jsonReason (reason : Option String)
  | jsonInvalid
  deriving DecidableEq, Repr

/-- The second reject proxy in the repository (Document Rejection API Route
with zod validation of the `reason`): auth guard, rate limit, body
validation (400 on a zod failure, which includes a reason longer than 500
characters), then one forwarded `POST` to `BACKEND_URL/approval/{id}/reject`.
The forwarded body is the validated reason (the JSON wrapper is abstracted);
backend body and status are returned verbatim. -/
def rejectValidatedPOST (sess : Option (Option String)) (rateOk : Bool) (id : String)
    (rb : RejectReqBody) (fetchFn : BackendRequest → HttpResponse) : RouteResult :=
  if ¬ sessionAuthed sess then
    ⟨⟨401, .errJson "Unauthorized - Please sign in"⟩, []⟩
  else if ¬ rateOk then
    ⟨⟨429, .errJson "Too many requests. Please try again later."⟩, []⟩
  else
    match rb with
    | .jsonInvalid => ⟨⟨400, .errJson "Invalid input"⟩, []⟩
    | .jsonReason (some r) =>
      if r.length > 500 then
        ⟨⟨400, .errJson "Invalid input"⟩, []⟩
      else
        let req : BackendRequest := ⟨"POST", BACKEND_URL ++ "/approval/" ++ id ++ "/reject", some r⟩
        let resp := fetchFn req
        ⟨⟨resp.status, .passthrough resp.body⟩, [req]⟩
    | .jsonReason none =>
      let req : BackendRequest := ⟨"POST", BACKEND_URL ++ "/approval/" ++ id ++ "/reject", none⟩
      let resp := fetchFn req
      ⟨⟨resp.status, .passthrough resp.body⟩, [req]⟩
    | .notJson =>
      let req : BackendRequest := ⟨"POST", BACKEND_URL ++ "/approval/" ++ id ++ "/reject", none⟩
      let resp := fetchFn req
      ⟨⟨resp.status, .passthrough resp.body⟩, [req]⟩

/-- `GET /api/approval/pdf/[id]` (preview PDF proxy): auth guard, one `GET`
to `BACKEND_URL/approval/preview/{id}` for the signed URL (carried in the
body payload), then one `GET` of the PDF bytes from that URL. -/
def pdfPreviewGET (sess : Option (Option String)) (id : String)
    (fetchFn : BackendRequest → HttpResponse) : RouteResult :=
  if ¬ sessionAuthed sess then
    ⟨⟨401, .errJson "Unauthorized"⟩, []⟩
  else
    let req : BackendRequest := ⟨"GET", BACKEND_URL ++ "/approval/preview/" ++ id, none⟩
    let resp := fetchFn req
    if ¬ respOk resp then
      ⟨⟨resp.status, .errJson (jsOr resp.body.detail "Failed to get preview")⟩, [req]⟩
    else
      let pdfReq : BackendRequest := ⟨"GET", resp.body.payload, none⟩
      let pdfResp := fetchFn pdfReq
      if ¬ respOk pdfResp then
        ⟨⟨pdfResp.status, .errJson "Failed to fetch PDF from storage"⟩, [req, pdfReq]⟩
      else
        ⟨⟨200, .pdfBytes pdfResp.body.payload.length⟩, [req, pdfReq]⟩

/-- `GET` download proxy (`/approval/download/{id}`): auth guard, then one
forwarded `GET` for the signed download URL. -/
def downloadGET (sess : Option (Option String)) (id : String)
    (fetchFn : BackendRequest → HttpResponse) : RouteResult :=
  if ¬ sessionAuthed sess then
    ⟨⟨401, .errJson "Unauthorized"⟩, []⟩
  else
    let req : BackendRequest := ⟨"GET", BACKEND_URL ++ "/approval/download/" ++ id, none⟩
    let resp := fetchFn req
    if ¬ respOk resp then
      ⟨⟨resp.status, .errJson (jsOr resp.body.detail "Failed to get download URL")⟩, [req]⟩
    else
      ⟨⟨200, .passthrough resp.body⟩, [req]⟩

/-! ### lib/api.ts client request shapes -/

/-- The request `getDocumentById` issues: `fetch` of `/api/documents/{id}`
with `method: "GET"`. -/
def getDocumentById_request (id : String) : BackendRequest :=
  ⟨"GET", "/api/documents/" ++ id, none⟩

/-- The request `getExtraction` issues: `fetch` of
`/api/approval/extractions/{id}` with `method: "GET"`. -/
def getExtraction_request (id : String) : BackendRequest :=
  ⟨"GET", "/api/approval/extractions/" ++ id, none⟩

/-- The request `approveDocument` issues: `POST /api/approval/approve/{id}`. -/
def approveDocument_request (id : String) : BackendRequest :=
  ⟨"POST", "/api/approval/approve/" ++ id, none⟩

/-- The request `rejectDocument` issues: `POST /api/approval/reject/{id}`,
with the optional reason as body (JSON wrapper abstracted). -/
def rejectDocument_request (id : String) (reason : Option String) : BackendRequest :=
  ⟨"POST", "/api/approval/reject/" ++ id, reason⟩

/-! ### lib/types.ts and StatusBadge.tsx -/

/-- The six document status values §3 of the spec allows. -/
def specAllowedStatuses : List String :=
  ["uploaded", "redacting", "redacted", "redaction_failed", "approved", "rejected"]

/-- The values of the `DocumentStatus` union type in `lib/types.ts`. -/
def DocumentStatusValues : List String :=
  ["uploaded", "redacting", "redacted", "approved", "rejected"]

/-- Label and className pair of one `statusConfig` entry. -/
structure StatusCfg where
  label : String
  className : String
  deriving DecidableEq, Repr

/-- `statusConfig` from `lib/types.ts`, as the JS object lookup
`statusConfig[status]`: defined on exactly the five `DocumentStatus` keys,
`undefined` (`none`) on every other string. -/
def statusConfig (status : String) : Option StatusCfg :=
  if status = "uploaded" then some ⟨"Uploaded", "bg-blue-50 text-blue-700"⟩
  else if status = "redacting" then some ⟨"Processing", "bg-yellow-50 text-yellow-700"⟩
  else if status = "redacted" then some ⟨"Ready for Review", "bg-green-50 text-green-700"⟩
  else if status = "approved" then some ⟨"Approved", "bg-purple-50 text-purple-700"⟩
  else if status = "rejected" then some ⟨"Rejected", "bg-red-50 text-red-700"⟩
  else none

/-- The badge `StatusBadge` renders: its label and merged class list. -/
structure Badge where
  label : String
  classes : List String
  deriving DecidableEq, Repr

/-- `StatusBadge` from `StatusBadge.tsx`: looks `status` up in
`statusConfig` and reads `config.className` and `config.label`. When the
lookup is `undefined` the property accesses throw, modelled as `none`. -/
def StatusBadge (status : String) (className : Option String) : Option Badge :=
  match statusConfig status with
  | none => none
  | some config =>
    some ⟨config.label,
      ["inline-flex items-center px-3 py-1 rounded-lg text-sm font-medium",
        config.className] ++ className.toList⟩

/-! ### ExtractionCard (tax field rendering) -/

/-- The `extractedFields` prop of `ExtractionCard`: the five named tax
fields, each nullable. Numeric amounts are carried as integers; only
nullness and sign matter to the rendering logic. -/
structure ExtractedFields where
  filing_status : Option String
  w2_wages : Option Int
  total_deductions : Option Int
  ira_distributions_total : Option Int
  capital_gain_or_loss : Option Int
  deriving DecidableEq, Repr

/-- A rendered field cell: the `N/A` placeholder, a currency-formatted
amount (the `Intl.NumberFormat` output is abstracted as the amount it
formats), or plain text. -/
inductive CellVal where
  | na
  | currency (amount : Int)
  | text (s : String)
  deriving DecidableEq, Repr

/-- `formatCurrency` from `ExtractionCard`: `N/A` for `null`, otherwise the
currency-formatted value. -/
def formatCurrency (value : Option Int) : CellVal :=
  match value with
  | none => .na
  | some v => .currency v

/-- Rendering of `extractedFields.filing_status || 'N/A'`: JS falsiness
makes both `null` and the empty string fall back to `N/A`. -/
def filingStatusCell (s : Option String) : CellVal :=
  match s with
  | none => .na
  | some str => if str = "" then .na else .text str

/-- The view `ExtractionCard` returns: the extracting spinner, the failed
card, the not-started card, or the completed card with its five field
cells. -/
inductive CardView where
  | loadingView
  | failedView (msg : String)
  | notStartedView
  | completedView (filingStatus w2Wages totalDeductions iraDistributions capitalGainLoss : CellVal)
  deriving DecidableEq, Repr

/-- `ExtractionCard` from the component source: the three status guards in
source order, then the completed rendering of all five fields. -/
def ExtractionCard (fields : ExtractedFields) (status : Option String)
    (error : Option String) : CardView :=
  if status = some "extracting" then .loadingView
  else if status = some "failed" then
    .failedView (jsOr error "Unable to extract tax fields from this document")
  else if status = some "not_started" then .notStartedView
  else
    .completedView
      (filingStatusCell fields.filing_status)
      (formatCurrency fields.w2_wages)
      (formatCurrency fields.total_deductions)
      (formatCurrency fields.ira_distributions_total)
      (formatCurrency fields.capital_gain_or_loss)

/-- Whether a card view is the failed-extraction rendering. -/
def CardView.isFailed : CardView → Bool
  | .failedView _ => true
  | _ => false

/-! ### approval/[id]/page.tsx and the view page -/

/-- The state effects one run of a `loadPreview` callback leaves behind:
the preview URL and error message it sets, whether it schedules another
poll, and where it redirects. -/
structure PageEffects where
  preview : Option String
  errorMsg : Option String
  schedulePoll : Bool
  redirect : Option String
  deriving DecidableEq, Repr

/-- `loadPreview` of the approval page, branching on the fetched document
status: `redacting` sets an error and re-polls after 2 seconds; `redacted`
sets the PDF proxy URL as preview; `redaction_failed` and `uploaded` set
errors; `approved` redirects to the view page; any other status falls
through all branches. -/
def approvalLoadPreview (id docStatus : String) : PageEffects :=
  if docStatus = "redacting" then
    ⟨none, some "Document is still being redacted. Please wait...", true, none⟩
  else if docStatus = "redacted" then
    ⟨some ("/api/approval/pdf/" ++ id), none, false, none⟩
  else if docStatus = "redaction_failed" then
    ⟨none, some "Document redaction failed. Please upload again.", false, none⟩
  else if docStatus = "uploaded" then
    ⟨none, some "Document has not been redacted yet. Please wait for redaction to complete.", false, none⟩
  else if docStatus = "approved" then
    ⟨none, none, false, some ("/view/" ++ id)⟩
  else
    ⟨none, none, false, none⟩

/-- `loadPreview` of the view page: any status other than `approved` sets
an error; `approved` sets the view PDF proxy URL as preview. -/
def viewLoadPreview (id docStatus : String) : PageEffects :=
  if docStatus ≠ "approved" then
    ⟨none,
      some ("Document cannot be viewed. Only approved documents can be viewed. Current status: "
        ++ docStatus),
      false, none⟩
  else
    ⟨some ("/api/view/pdf/" ++ id), none, false, none⟩

/-- What the page body renders after loading finishes: the error screen
(with its heading and the error message paragraph), or the document view
around the preview URL. -/
inductive PageView where
  | errorScreen (heading : String) (msg : Option String)
  | documentScreen (previewUrl : String)
  deriving DecidableEq, Repr

/-- The render guard shared by both pages
(`if (error || !previewUrl) return <error screen>`), with the heading text
of the respective page. -/
def renderPage (heading : String) (errorMsg : Option String)
    (preview : Option String) : PageView :=
  match preview with
  | none => .errorScreen heading errorMsg
  | some url =>
    if errorMsg.isSome then .errorScreen heading errorMsg
    else .documentScreen url

/-! ### waitForRedaction (lib/api.ts) -/

/-- The value `waitForRedaction` produces: resolve with `success: true` on
`redacted`, resolve with `success: false` on `redaction_failed`, or throw
the timeout error. -/
inductive WaitResult where
  | success
  | failure
  | timeout
  deriving DecidableEq, Repr

/-- One run of the `waitForRedaction` loop: its result, the number of
`getDocumentById` polls it performed, and the list of sleep durations (ms)
it awaited. -/
structure WaitTrace where
  result : WaitResult
  polls : Nat
  sleeps : List Nat
  deriving DecidableEq, Repr

/-- The `while (attempts < maxAttempts)` loop of `waitForRedaction`:
`poll i` is the status the `i`-th poll observes (the loop polls once per
iteration and increments `attempts` only after a non-terminal poll, so the
`i`-th poll runs with `attempts = i`). `remaining` is
`maxAttempts - attempts`. -/
def waitFrom (poll : Nat → String) (attempts : Nat) : Nat → WaitTrace
  | 0 => ⟨.timeout, 0, []⟩
  | r + 1 =>
    let st := poll attempts
    if st = "redacted" then ⟨.success, 1, []⟩
    else if st = "redaction_failed" then ⟨.failure, 1, []⟩
    else
      let t := waitFrom poll (attempts + 1) r
      ⟨t.result, t.polls + 1, 2000 :: t.sleeps⟩

/-- `waitForRedaction` with `maxAttempts = 60`. -/
def waitForRedaction (poll : Nat → String) : WaitTrace :=
  waitFrom poll 0 60

/-- Whether a status string terminates the polling loop. -/
def terminalStatus (st : String) : Prop :=
  st = "redacted" ∨ st = "redaction_failed"

instance (st : String) : Decidable (terminalStatus st) := by
  unfold terminalStatus; infer_instance

/-! ### Spec-modelled backend pieces

The FastAPI backend (routers, redaction pipeline, state machine) is not in
the repository snapshot; these definitions model the parts the claims need
from §4.4-§4.6 and §6 of the spec, marked `Modelled from the spec:`. -/

/-- Document status values of the lifecycle state machine (§3, §4.6). -/
inductive DocStatus where
  | uploaded
  | redacting
  | redacted
  | redaction_failed
  | approved
  | rejected
  deriving DecidableEq, Repr

/-- The document record the pipeline mutates (§3): status, whether staging
and vault objects exist, and the PII count. -/
structure PipeDoc where
  status : DocStatus
  stagingSet : Bool
  vaultSet : Bool
  piiCount : Nat
  deriving DecidableEq, Repr

/-- Modelled from the spec: the validation loop (§4.5). The re-scan runs
the Text/Geometry Extractor and the PII Span Detector against the redacted
output; zero findings transition the document to `redacted` with
`pii_count` set, any finding marks it `redaction_failed` and purges the
staging object, and the staging bytes are only kept on the clean path. -/
def validationOutcome (rescan : List (Nat × Nat)) (removedCount : Nat)
    (d : PipeDoc) : PipeDoc :=
  if rescan.isEmpty then
    { d with status := .redacted, piiCount := removedCount, stagingSet := true }
  else
    { d with status := .redaction_failed, stagingSet := false }

/-- Modelled from the spec: the final validation stage of the redaction
pipeline (§2, §4.1, §4.2, §4.4, §4.5). `render` is the Redaction Renderer
applied to the original bytes and boxes, `extractText` the Text/Geometry
Extractor composed with the canonical concatenation, `detect` the PII Span
Detector; the re-scan findings are
`detect (extractText (render bytes boxes))` and decide the terminal
status. -/
def pipelineValidate (render : List Nat → List (Nat × Nat) → List Nat)
    (extractText : List Nat → String) (detect : String → List (Nat × Nat))
    (bytes : List Nat) (boxes : List (Nat × Nat)) (removedCount : Nat)
    (d : PipeDoc) : PipeDoc :=
  validationOutcome (detect (extractText (render bytes boxes))) removedCount d

/-- Modelled from the spec: `POST /approval/{id}/approve` (§4.6, §6)
returns 200 with the extraction started when the document is `redacted`,
otherwise a 409 `ConflictingState` error whose `detail` is the human
message. -/
def backendApproveResponse (docStatus : String) : HttpResponse :=
  if docStatus = "redacted" then
    ⟨200, ⟨none, some "Document approved; extraction started", "document"⟩⟩
  else
    ⟨409, ⟨some "Document is not in redacted state", none, ""⟩⟩

/-- Modelled from the spec: `POST /approval/{id}/reject` (§4.6, §6)
returns 200 with the document purged when it is `redacted`, otherwise a
409 `ConflictingState` error. -/
def backendRejectResponse (docStatus : String) : HttpResponse :=
  if docStatus = "redacted" then
    ⟨200, ⟨none, some "Document rejected and purged", ""⟩⟩
  else
    ⟨409, ⟨some "Document is not in redacted state", none, ""⟩⟩

/-- A stored backend document row (§3, abridged to what C4 needs). -/
structure StoredDoc where
  status : String
  stagingSet : Bool
  vaultSet : Bool
  deriving DecidableEq, Repr

/-- The backend structured store: document rows and extraction rows keyed
by id. -/
structure BackendState where
  docs : List (String × StoredDoc)
  extractions : List (String × String)
  deriving DecidableEq, Repr

/-- Modelled from the spec: the effect of a `POST` on the store. The
approve transition (§4.6) is modelled as the representative write: a
`POST` to `/approval/{id}/approve` moves a `redacted` row to `approved`,
staging to vault, and starts its extraction. -/
def applyPost (url : String) (st : BackendState) : BackendState :=
  let hit := fun (p : String × StoredDoc) =>
    url = BACKEND_URL ++ "/approval/" ++ p.1 ++ "/approve" && p.2.status = "redacted"
  { docs := st.docs.map fun p =>
      if hit p then (p.1, ⟨"approved", false, true⟩) else p,
    extractions := st.docs.foldr
      (fun p acc => if hit p then (p.1, "extracting") :: acc else acc)
      st.extractions }

/-- Modelled from the spec: the backend REST dispatch (§5, §6). Status
queries (`GET /documents/{id}`, `GET /approval/extractions/{id}`) return
the current record and never mutate the store; `POST` requests may mutate
it via `applyPost`. -/
def backendHandle (st : BackendState) (r : BackendRequest) : HttpResponse × BackendState :=
  if r.method = "GET" then
    (⟨200, ⟨none, none, "record"⟩⟩, st)
  else
    (⟨200, ⟨none, none, ""⟩⟩, applyPost r.url st)

/-- Runs a handler's backend calls, in order, against the store. -/
def runCalls (st : BackendState) (calls : List BackendRequest) : BackendState :=
  calls.foldl (fun s r => (backendHandle s r).2) st

/-- Modelled from the spec: the Next.js proxy for
`GET /approval/extractions/{id}` (§6; the route file is not in the
snapshot). Mirroring the documents proxy, it forwards the status query as
a single `GET` to the backend after the auth guard. -/
def extractionsProxyGET (sess : Option (Option String)) (id : String)
    (fetchFn : BackendRequest → HttpResponse) : RouteResult :=
  if ¬ sessionAuthed sess then
    ⟨⟨401, .errJson "Unauthorized"⟩, []⟩
  else
    let req : BackendRequest := ⟨"GET", BACKEND_URL ++ "/approval/extractions/" ++ id, none⟩
    let resp := fetchFn req
    if ¬ respOk resp then
      ⟨⟨resp.status, .errJson (jsOr resp.body.detail "Failed to get extraction")⟩, [req]⟩
    else
      ⟨⟨200, .passthrough resp.body⟩, [req]⟩

/-- One full status poll through `getDocumentById` and its proxy route:
the store after the calls the route handler makes. -/
def pollDocumentState (sess : Option (Option String)) (id : String)
    (st : BackendState) : BackendState :=
  runCalls st (documentsIdGET sess id (fun r => (backendHandle st r).1)).calls

/-- One full extraction poll through `getExtraction` and its proxy. -/
def pollExtractionState (sess : Option (Option String)) (id : String)
    (st : BackendState) : BackendState :=
  runCalls st (extractionsProxyGET sess id (fun r => (backendHandle st r).1)).calls

/-! ## Theorems -/

/-- C10: a file whose MIME type is not among the four allowed types, or
whose size exceeds 10,485,760 bytes, is rejected with an error message and
no upload request; any other file is uploaded with exactly one request. -/
theorem uploadZone_validates_before_upload (f : JsFile) :
    ((f.type ∉ ALLOWED_TYPES ∨ f.size > 10485760) →
      ∃ m, handleFileUpload f = .showError m ∧
        uploadRequestCount (handleFileUpload f) = 0) ∧
    ((f.type ∈ ALLOWED_TYPES ∧ f.size ≤ 10485760) →
      handleFileUpload f = .upload f ∧
      uploadRequestCount (handleFileUpload f) = 1) := by
  have hmax : MAX_FILE_SIZE = 10485760 := by decide
  constructor
  · intro h
    rcases h with h | h
    · refine ⟨"Invalid file type. Only PDF, JPG, and PNG files are allowed.", ?_, ?_⟩ <;>
        simp [handleFileUpload, validateFile, h, uploadRequestCount]
    · by_cases ht : f.type ∈ ALLOWED_TYPES
      · refine ⟨"File too large. Maximum size is 10MB.", ?_, ?_⟩ <;>
          simp [handleFileUpload, validateFile, ht, hmax, h, uploadRequestCount]
      · refine ⟨"Invalid file type. Only PDF, JPG, and PNG files are allowed.", ?_, ?_⟩ <;>
          simp [handleFileUpload, validateFile, ht, uploadRequestCount]
  · rintro ⟨ht, hs⟩
    have hs2 : ¬ f.size > MAX_FILE_SIZE := by omega
    constructor <;> simp [handleFileUpload, validateFile, ht, hs2, uploadRequestCount]

/-- Witness for C10 at a valid PDF and an invalid text file. -/
theorem uploadZone_validates_before_upload_witness :
    (handleFileUpload ⟨"application/pdf", 100⟩ = .upload ⟨"application/pdf", 100⟩ ∧
      uploadRequestCount (handleFileUpload ⟨"application/pdf", 100⟩) = 1) ∧
    (∃ m, handleFileUpload ⟨"text/plain", 100⟩ = .showError m ∧
      uploadRequestCount (handleFileUpload ⟨"text/plain", 100⟩) = 0) :=
  ⟨(uploadZone_validates_before_upload ⟨"application/pdf", 100⟩).2 ⟨by decide, by decide⟩,
    (uploadZone_validates_before_upload ⟨"text/plain", 100⟩).1 (Or.inl (by decide))⟩

/-- C6: for a completed extraction the card renders all five named tax
fields, each null field as the `N/A` cell; the failed rendering appears
exactly for status `failed`. -/
theorem extractionCard_completed_renders_all_fields (fields : ExtractedFields)
    (err : Option String) :
    ExtractionCard fields (some "completed") err =
      .completedView (filingStatusCell fields.filing_status)
        (formatCurrency fields.w2_wages)
        (formatCurrency fields.total_deductions)
        (formatCurrency fields.ira_distributions_total)
        (formatCurrency fields.capital_gain_or_loss) ∧
    formatCurrency none = .na ∧ filingStatusCell none = .na ∧
    (∀ st : Option String,
      (ExtractionCard fields st err).isFailed = true ↔ st = some "failed") := by
  refine ⟨by simp [ExtractionCard], rfl, rfl, ?_⟩
  intro st
  by_cases h1 : st = some "extracting"
  · simp [ExtractionCard, h1, CardView.isFailed]
  · by_cases h2 : st = some "failed"
    · simp [ExtractionCard, h1, h2, CardView.isFailed]
    · by_cases h3 : st = some "not_started"
      · simp [ExtractionCard, h1, h2, h3, CardView.isFailed]
      · simp [ExtractionCard, h1, h2, h3, CardView.isFailed]

/-- Witness for C6 at an extraction with three null fields. -/
theorem extractionCard_completed_renders_all_fields_witness :
    ExtractionCard ⟨none, none, some 5, none, some (-3)⟩ (some "completed") none =
      .completedView .na .na (.currency 5) .na (.currency (-3)) :=
  (extractionCard_completed_renders_all_fields ⟨none, none, some 5, none, some (-3)⟩ none).1

/-- C2 counterexample: `redaction_failed` is a status the spec allows, yet
it is absent from the `DocumentStatus` union, `statusConfig` has no entry
for it, and `StatusBadge` on it finds no config (the property accesses on
the `undefined` lookup throw). -/
theorem statusBadge_missing_redaction_failed :
    "redaction_failed" ∈ specAllowedStatuses ∧
    "redaction_failed" ∉ DocumentStatusValues ∧
    statusConfig "redaction_failed" = none ∧
    StatusBadge "redaction_failed" none = none := by
  decide

/-- C2 (amended): `statusConfig` defines an entry, and `StatusBadge`
produces a badge, for exactly the five statuses of the frontend
`DocumentStatus` type; the spec-allowed status `redaction_failed` has no
entry. -/
theorem statusBadge_defined_on_frontend_statuses :
    (∀ s ∈ DocumentStatusValues,
      (statusConfig s).isSome = true ∧ (StatusBadge s none).isSome = true) ∧
    statusConfig "redaction_failed" = none := by
  decide

/-- Witness for the amended C2 at the status `uploaded`. -/
theorem statusBadge_defined_on_frontend_statuses_witness :
    (statusConfig "uploaded").isSome = true ∧ (StatusBadge "uploaded" none).isSome = true :=
  statusBadge_defined_on_frontend_statuses.1 "uploaded" (by decide)

/-- C5: evaluation at a concrete document id. The route file mounted at
`/api/approval/reject/[id]` (the URL `rejectDocument` fetches) forwards the
rejection as a `POST` to `BACKEND_URL/approval/reject/doc1`, which differs
from the endpoint `POST /approval/{id}/reject` that the README documents
and that the second reject proxy in the repository uses. -/
theorem rejectProxy_backend_path_mismatch :
    (rejectDocument_request "doc1" none).method = "POST" ∧
    (rejectDocument_request "doc1" none).url = "/api/approval/reject/doc1" ∧
    (rejectProxyPOST (some (some "user@example.com")) "doc1"
        (fun _ => ⟨200, ⟨none, some "ok", ""⟩⟩)).calls =
      [⟨"POST", BACKEND_URL ++ "/approval/reject/doc1", none⟩] ∧
    BACKEND_URL ++ "/approval/reject/doc1" ≠ BACKEND_URL ++ "/approval/doc1/reject" ∧
    (rejectValidatedPOST (some (some "user@example.com")) true "doc1" (.jsonReason none)
        (fun _ => ⟨200, ⟨none, some "ok", ""⟩⟩)).calls =
      [⟨"POST", BACKEND_URL ++ "/approval/doc1/reject", none⟩] := by
  refine ⟨rfl, rfl, ?_, by decide, ?_⟩ <;>
    · simp [rejectProxyPOST, rejectValidatedPOST, sessionAuthed, respOk]
      decide

/-- C8: an unauthenticated session makes every proxy route handler return
HTTP 401 without performing any backend fetch. -/
theorem unauthenticated_requests_are_401_without_fetch
    (sess : Option (Option String)) (h : sessionAuthed sess = false)
    (rateOk : Bool) (id form : String) (rb : RejectReqBody)
    (fetchFn : BackendRequest → HttpResponse) :
    ((uploadPOST sess rateOk form fetchFn).response.status = 401 ∧
      (uploadPOST sess rateOk form fetchFn).calls = []) ∧
    ((documentsIdGET sess id fetchFn).response.status = 401 ∧
      (documentsIdGET sess id fetchFn).calls = []) ∧
    ((documentsIdDELETE sess id fetchFn).response.status = 401 ∧
      (documentsIdDELETE sess id fetchFn).calls = []) ∧
    ((approveProxyPOST sess rateOk id fetchFn).response.status = 401 ∧
      (approveProxyPOST sess rateOk id fetchFn).calls = []) ∧
    ((rejectProxyPOST sess id fetchFn).response.status = 401 ∧
      (rejectProxyPOST sess id fetchFn).calls = []) ∧
    ((rejectValidatedPOST sess rateOk id rb fetchFn).response.status = 401 ∧
      (rejectValidatedPOST sess rateOk id rb fetchFn).calls = []) ∧
    ((pdfPreviewGET sess id fetchFn).response.status = 401 ∧
      (pdfPreviewGET sess id fetchFn).calls = []) ∧
    ((downloadGET sess id fetchFn).response.status = 401 ∧
      (downloadGET sess id fetchFn).calls = []) := by
  simp [uploadPOST, documentsIdGET, documentsIdDELETE, approveProxyPOST,
    rejectProxyPOST, rejectValidatedPOST, pdfPreviewGET, downloadGET, h]

/-- Witness for C8 at the absent session. -/
theorem unauthenticated_requests_are_401_without_fetch_witness :
    (uploadPOST none true "form" (fun _ => ⟨200, ⟨none, none, ""⟩⟩)).response.status = 401 ∧
    (documentsIdGET none "doc1" (fun _ => ⟨200, ⟨none, none, ""⟩⟩)).calls = [] :=
  ⟨(unauthenticated_requests_are_401_without_fetch none rfl true "doc1" "form" .notJson
      (fun _ => ⟨200, ⟨none, none, ""⟩⟩)).1.1,
    (unauthenticated_requests_are_401_without_fetch none rfl true "doc1" "form" .notJson
      (fun _ => ⟨200, ⟨none, none, ""⟩⟩)).2.1.2⟩

/-- C3: a forwarded approval request returns the exact backend status code
and body to the caller; against the spec-modelled backend, a document not
in `redacted` yields 409 with a human-readable message in the JSON body. -/
theorem approveProxy_forwards_backend_status (sess : Option (Option String))
    (rateOk : Bool) (id : String) (bresp : HttpResponse)
    (h1 : sessionAuthed sess = true) (h2 : rateOk = true) :
    ((approveProxyPOST sess rateOk id (fun _ => bresp)).response.status = bresp.status ∧
      (approveProxyPOST sess rateOk id (fun _ => bresp)).response.body = .passthrough bresp.body ∧
      (approveProxyPOST sess rateOk id (fun _ => bresp)).calls =
        [⟨"POST", BACKEND_URL ++ "/approval/" ++ id ++ "/approve", none⟩]) ∧
    (∀ ds : String, ds ≠ "redacted" →
      (approveProxyPOST sess rateOk id
          (fun _ => backendApproveResponse ds)).response.status = 409 ∧
      ∃ m, bodyMessage (approveProxyPOST sess rateOk id
          (fun _ => backendApproveResponse ds)).response.body = some m) := by
  constructor
  · refine ⟨?_, ?_, ?_⟩ <;> simp [approveProxyPOST, h1, h2]
  · intro ds hds
    constructor
    · simp [approveProxyPOST, h1, h2, backendApproveResponse, hds]
    · refine ⟨"Document is not in redacted state", ?_⟩
      simp [approveProxyPOST, h1, h2, backendApproveResponse, hds, bodyMessage,
        Option.orElse]

/-- Witness for C3: approving an `uploaded` document through the proxy
returns 409. -/
theorem approveProxy_forwards_backend_status_witness :
    (approveProxyPOST (some (some "user@example.com")) true "doc1"
        (fun _ => backendApproveResponse "uploaded")).response.status = 409 :=
  ((approveProxy_forwards_backend_status (some (some "user@example.com")) true "doc1"
      (backendApproveResponse "uploaded") (by decide) rfl).2 "uploaded" (by decide)).1

/-- C4: the status-query clients issue only `GET` requests, the proxy
forwards them as `GET`, and running any number of such polls against the
spec-modelled backend leaves the stored state unchanged. -/
theorem statusQueries_idempotent (sess : Option (Option String)) (id : String)
    (h : sessionAuthed sess = true) :
    (getDocumentById_request id).method = "GET" ∧
    (getExtraction_request id).method = "GET" ∧
    (∀ st : BackendState,
      pollDocumentState sess id st = st ∧ pollExtractionState sess id st = st) ∧
    (∀ n : Nat, ∀ st : BackendState,
      Nat.iterate (pollDocumentState sess id) n st = st ∧
      Nat.iterate (pollExtractionState sess id) n st = st) := by
  have hdoc : ∀ st : BackendState, pollDocumentState sess id st = st := by
    intro st
    simp [pollDocumentState, documentsIdGET, h, runCalls, backendHandle, respOk]
  have hext : ∀ st : BackendState, pollExtractionState sess id st = st := by
    intro st
    simp [pollExtractionState, extractionsProxyGET, h, runCalls, backendHandle, respOk]
  refine ⟨rfl, rfl, fun st => ⟨hdoc st, hext st⟩, ?_⟩
  intro n
  induction n with
  | zero => intro st; exact ⟨rfl, rfl⟩
  | succ k ih =>
    intro st
    constructor
    · rw [Function.iterate_succ_apply, hdoc st]; exact (ih st).1
    · rw [Function.iterate_succ_apply, hext st]; exact (ih st).2

/-- Witness for C4: polling a one-document store twice changes nothing. -/
theorem statusQueries_idempotent_witness :
    Nat.iterate (pollDocumentState (some (some "user@example.com")) "doc1") 2
        ⟨[("doc1", ⟨"redacted", true, false⟩)], []⟩ =
      ⟨[("doc1", ⟨"redacted", true, false⟩)], []⟩ :=
  ((statusQueries_idempotent (some (some "user@example.com")) "doc1" (by decide)).2.2.2 2
    ⟨[("doc1", ⟨"redacted", true, false⟩)], []⟩).1

/-- C7: the approval page sets a preview URL exactly for status `redacted`
and the view page exactly for `approved`; for every other status no
preview URL is set and the page polls again, redirects, or renders the
error screen. -/
theorem previewUrl_gated_by_status (id st : String) :
    ((approvalLoadPreview id st).preview.isSome = true ↔ st = "redacted") ∧
    ((viewLoadPreview id st).preview.isSome = true ↔ st = "approved") ∧
    (st ≠ "redacted" →
      (approvalLoadPreview id st).preview = none ∧
      ((approvalLoadPreview id st).schedulePoll = true ∨
        (approvalLoadPreview id st).redirect.isSome = true ∨
        ∃ m, renderPage "Unable to Load Preview" (approvalLoadPreview id st).errorMsg
            (approvalLoadPreview id st).preview = .errorScreen "Unable to Load Preview" m)) ∧
    (st ≠ "approved" →
      (viewLoadPreview id st).preview = none ∧
      ∃ m, renderPage "Unable to Load Document" (viewLoadPreview id st).errorMsg
          (viewLoadPreview id st).preview =
        .errorScreen "Unable to Load Document" (some m)) := by
  by_cases h1 : st = "redacting"
  · refine ⟨?_, ?_, ?_, ?_⟩ <;> simp [approvalLoadPreview, viewLoadPreview, renderPage, h1]
  · by_cases h2 : st = "redacted"
    · refine ⟨?_, ?_, ?_, ?_⟩ <;>
        simp [approvalLoadPreview, viewLoadPreview, renderPage, h1, h2]
    · by_cases h3 : st = "redaction_failed"
      · refine ⟨?_, ?_, ?_, ?_⟩ <;>
          simp [approvalLoadPreview, viewLoadPreview, renderPage, h1, h2, h3]
      · by_cases h4 : st = "uploaded"
        · refine ⟨?_, ?_, ?_, ?_⟩ <;>
            simp [approvalLoadPreview, viewLoadPreview, renderPage, h1, h2, h3, h4]
        · by_cases h5 : st = "approved"
          · refine ⟨?_, ?_, ?_, ?_⟩ <;>
              simp [approvalLoadPreview, viewLoadPreview, renderPage, h1, h2, h3, h4, h5]
          · refine ⟨?_, ?_, ?_, ?_⟩ <;>
              simp [approvalLoadPreview, viewLoadPreview, renderPage, h1, h2, h3, h4, h5]

/-- Witness for C7 at a rejected document. -/
theorem previewUrl_gated_by_status_witness :
    (approvalLoadPreview "doc1" "rejected").preview = none ∧
    (viewLoadPreview "doc1" "rejected").preview = none :=
  ⟨((previewUrl_gated_by_status "doc1" "rejected").2.2.1 (by decide)).1,
    ((previewUrl_gated_by_status "doc1" "rejected").2.2.2 (by decide)).1⟩

/-- C1: if the validation re-scan (extractor plus detector on the renderer
output) ends the pipeline in `redacted`, the re-scan found nothing; any
re-scan finding forces the terminal status `redaction_failed`, never
`redacted`. -/
theorem validation_roundtrip_law
    (render : List Nat → List (Nat × Nat) → List Nat)
    (extractText : List Nat → String) (detect : String → List (Nat × Nat))
    (bytes : List Nat) (boxes : List (Nat × Nat)) (removedCount : Nat) (d : PipeDoc) :
    ((pipelineValidate render extractText detect bytes boxes removedCount d).status = .redacted →
      detect (extractText (render bytes boxes)) = []) ∧
    (detect (extractText (render bytes boxes)) ≠ [] →
      (pipelineValidate render extractText detect bytes boxes removedCount d).status
          = .redaction_failed ∧
      (pipelineValidate render extractText detect bytes boxes removedCount d).status
          ≠ .redacted) := by
  by_cases h : detect (extractText (render bytes boxes)) = []
  · constructor
    · intro _; exact h
    · intro hne; exact absurd h hne
  · constructor
    · intro hred
      exfalso
      simp [pipelineValidate, validationOutcome, List.isEmpty_iff, h] at hred
    · intro _
      constructor <;> simp [pipelineValidate, validationOutcome, List.isEmpty_iff, h]

/-- Witness for C1: a residual finding on the re-scan ends the pipeline in
`redaction_failed`. -/
theorem validation_roundtrip_law_witness :
    (pipelineValidate (fun b _ => b) (fun _ => "ssn") (fun _ => [(0, 1)]) [1, 2] [] 1
        ⟨.redacting, true, false, 0⟩).status = .redaction_failed :=
  ((validation_roundtrip_law (fun b _ => b) (fun _ => "ssn") (fun _ => [(0, 1)]) [1, 2] [] 1
      ⟨.redacting, true, false, 0⟩).2 (by decide)).1

lemma waitFrom_polls_le (poll : Nat → String) :
    ∀ r a, (waitFrom poll a r).polls ≤ r := by
  intro r
  induction r with
  | zero => intro a; simp [waitFrom]
  | succ r ih =>
    intro a
    by_cases h1 : poll a = "redacted"
    · simp [waitFrom, h1]
    · by_cases h2 : poll a = "redaction_failed"
      · simp [waitFrom, h1, h2]
      · simpa [waitFrom, h1, h2] using Nat.succ_le_succ (ih (a + 1))

lemma waitFrom_sleeps_all (poll : Nat → String) :
    ∀ r a, ∀ d ∈ (waitFrom poll a r).sleeps, d = 2000 := by
  intro r
  induction r with
  | zero => intro a; simp [waitFrom]
  | succ r ih =>
    intro a
    by_cases h1 : poll a = "redacted"
    · simp [waitFrom, h1]
    · by_cases h2 : poll a = "redaction_failed"
      · simp [waitFrom, h1, h2]
      · intro d hd
        simp only [waitFrom, h1, h2, if_false, List.mem_cons] at hd
        rcases hd with hd | hd
        · exact hd
        · exact ih (a + 1) d hd

lemma waitFrom_success_iff (poll : Nat → String) :
    ∀ r a, (waitFrom poll a r).result = .success ↔
      ∃ i, i < r ∧ poll (a + i) = "redacted" ∧
        ∀ j, j < i → ¬ terminalStatus (poll (a + j)) := by
  intro r
  induction r with
  | zero =>
    intro a
    constructor
    · intro h; exact absurd h (by simp [waitFrom])
    · rintro ⟨i, hi, -⟩; exact absurd hi (Nat.not_lt_zero i)
  | succ r ih =>
    intro a
    by_cases h1 : poll a = "redacted"
    · constructor
      · intro _
        refine ⟨0, Nat.succ_pos r, by simpa using h1, ?_⟩
        intro j hj; exact absurd hj (Nat.not_lt_zero j)
      · intro _; simp [waitFrom, h1]
    · by_cases h2 : poll a = "redaction_failed"
      · constructor
        · intro hres
          have : (waitFrom poll a (r + 1)).result = WaitResult.failure := by
            simp [waitFrom, h1, h2]
          rw [this] at hres
          exact absurd hres (by decide)
        · rintro ⟨i, hi, hred, hmin⟩
          match i with
          | 0 => exact absurd (by simpa using hred) h1
          | Nat.succ k =>
            have hterm := hmin 0 (Nat.succ_pos k)
            simp only [Nat.add_zero] at hterm
            exact absurd (Or.inr h2) hterm
      · have hshift : (waitFrom poll a (r + 1)).result = (waitFrom poll (a + 1) r).result := by
          simp [waitFrom, h1, h2]
        rw [hshift, ih (a + 1)]
        constructor
        · rintro ⟨i, hi, hred, hmin⟩
          refine ⟨i + 1, Nat.succ_lt_succ hi, ?_, ?_⟩
          · rw [show a + (i + 1) = a + 1 + i by omega]; exact hred
          · intro j hj
            match j with
            | 0 =>
              intro hterm
              simp only [Nat.add_zero] at hterm
              rcases hterm with hc | hc
              · exact h1 hc
              · exact h2 hc
            | Nat.succ k =>
              rw [show a + (k + 1) = a + 1 + k by omega]
              exact hmin k (by omega)
        · rintro ⟨i, hi, hred, hmin⟩
          match i with
          | 0 => exact absurd (by simpa using hred) h1
          | Nat.succ k =>
            refine ⟨k, by omega, ?_, ?_⟩
            · rw [show a + 1 + k = a + (k + 1) by omega]; exact hred
            · intro j hj
              have := hmin (j + 1) (by omega)
              rw [show a + (j + 1) = a + 1 + j by omega] at this
              exact this

lemma waitFrom_failure_iff (poll : Nat → String) :
    ∀ r a, (waitFrom poll a r).result = .failure ↔
      ∃ i, i < r ∧ poll (a + i) = "redaction_failed" ∧
        ∀ j, j < i → ¬ terminalStatus (poll (a + j)) := by
  intro r
  induction r with
  | zero =>
    intro a
    constructor
    · intro h; exact absurd h (by simp [waitFrom])
    · rintro ⟨i, hi, -⟩; exact absurd hi (Nat.not_lt_zero i)
  | succ r ih =>
    intro a
    by_cases h1 : poll a = "redacted"
    · constructor
      · intro hres
        have : (waitFrom poll a (r + 1)).result = WaitResult.success := by
          simp [waitFrom, h1]
        rw [this] at hres
        exact absurd hres (by decide)
      · rintro ⟨i, hi, hfail, hmin⟩
        match i with
        | 0 =>
          have : poll a = "redaction_failed" := by simpa using hfail
          rw [h1] at this
          exact absurd this (by decide)
        | Nat.succ k =>
          have hterm := hmin 0 (Nat.succ_pos k)
          simp only [Nat.add_zero] at hterm
          exact absurd (Or.inl h1) hterm
    · by_cases h2 : poll a = "redaction_failed"
      · constructor
        · intro _
          refine ⟨0, Nat.succ_pos r, by simpa using h2, ?_⟩
          intro j hj; exact absurd hj (Nat.not_lt_zero j)
        · intro _; simp [waitFrom, h1, h2]
      · have hshift : (waitFrom poll a (r + 1)).result = (waitFrom poll (a + 1) r).result := by
          simp [waitFrom, h1, h2]
        rw [hshift, ih (a + 1)]
        constructor
        · rintro ⟨i, hi, hfail, hmin⟩
          refine ⟨i + 1, Nat.succ_lt_succ hi, ?_, ?_⟩
          · rw [show a + (i + 1) = a + 1 + i by omega]; exact hfail
          · intro j hj
            match j with
            | 0 =>
              intro hterm
              simp only [Nat.add_zero] at hterm
              rcases hterm with hc | hc
              · exact h1 hc
              · exact h2 hc
            | Nat.succ k =>
              rw [show a + (k + 1) = a + 1 + k by omega]
              exact hmin k (by omega)
        · rintro ⟨i, hi, hfail, hmin⟩
          match i with
          | 0 => exact absurd (by simpa using hfail) h2
          | Nat.succ k =>
            refine ⟨k, by omega, ?_, ?_⟩
            · rw [show a + 1 + k = a + (k + 1) by omega]; exact hfail
            · intro j hj
              have := hmin (j + 1) (by omega)
              rw [show a + (j + 1) = a + 1 + j by omega] at this
              exact this

lemma waitFrom_timeout_iff (poll : Nat → String) :
    ∀ r a, (waitFrom poll a r).result = .timeout ↔
      ∀ i, i < r → ¬ terminalStatus (poll (a + i)) := by
  intro r
  induction r with
  | zero =>
    intro a
    constructor
    · intro _ i hi; exact absurd hi (Nat.not_lt_zero i)
    · intro _; simp [waitFrom]
  | succ r ih =>
    intro a
    by_cases h1 : poll a = "redacted"
    · constructor
      · intro hres
        have : (waitFrom poll a (r + 1)).result = WaitResult.success := by
          simp [waitFrom, h1]
        rw [this] at hres
        exact absurd hres (by decide)
      · intro hall
        have hna := hall 0 (Nat.succ_pos r)
        simp only [Nat.add_zero] at hna
        exact absurd (Or.inl h1) hna
    · by_cases h2 : poll a = "redaction_failed"
      · constructor
        · intro hres
          have : (waitFrom poll a (r + 1)).result = WaitResult.failure := by
            simp [waitFrom, h1, h2]
          rw [this] at hres
          exact absurd hres (by decide)
        · intro hall
          have hna := hall 0 (Nat.succ_pos r)
          simp only [Nat.add_zero] at hna
          exact absurd (Or.inr h2) hna
      · have hshift : (waitFrom poll a (r + 1)).result = (waitFrom poll (a + 1) r).result := by
          simp [waitFrom, h1, h2]
        rw [hshift, ih (a + 1)]
        constructor
        · intro hall i hi
          match i with
          | 0 =>
            intro hterm
            simp only [Nat.add_zero] at hterm
            rcases hterm with hc | hc
            · exact h1 hc
            · exact h2 hc
          | Nat.succ k =>
            rw [show a + (k + 1) = a + 1 + k by omega]
            exact hall k (by omega)
        · intro hall i hi
          have := hall (i + 1) (by omega)
          rw [show a + (i + 1) = a + 1 + i by omega] at this
          exact this

/-- C9: `waitForRedaction` polls at most 60 times, each inter-poll wait is
the 2000 ms interval, and its result is success exactly when the first
terminal status a poll observes is `redacted`, failure exactly when it is
`redaction_failed`, and the timeout error exactly when no poll among the
60 observes a terminal status. -/
theorem waitForRedaction_terminates (poll : Nat → String) :
    (waitForRedaction poll).polls ≤ 60 ∧
    (∀ d ∈ (waitForRedaction poll).sleeps, d = 2000) ∧
    ((waitForRedaction poll).result = .success ↔
      ∃ i, i < 60 ∧ poll i = "redacted" ∧ ∀ j, j < i → ¬ terminalStatus (poll j)) ∧
    ((waitForRedaction poll).result = .failure ↔
      ∃ i, i < 60 ∧ poll i = "redaction_failed" ∧ ∀ j, j < i → ¬ terminalStatus (poll j)) ∧
    ((waitForRedaction poll).result = .timeout ↔
      ∀ i, i < 60 → ¬ terminalStatus (poll i)) := by
  refine ⟨waitFrom_polls_le poll 60 0, waitFrom_sleeps_all poll 60 0, ?_, ?_, ?_⟩
  · simpa using waitFrom_success_iff poll 60 0
  · simpa using waitFrom_failure_iff poll 60 0
  · simpa using waitFrom_timeout_iff poll 60 0

/-- Witness for C9: a run whose first poll sees `redacted` succeeds. -/
theorem waitForRedaction_terminates_witness :
    (waitForRedaction (fun _ => "redacted")).result = .success :=
  (waitForRedaction_terminates (fun _ => "redacted")).2.2.1.mpr
    ⟨0, by decide, rfl, fun j hj => absurd hj (Nat.not_lt_zero j)⟩

end FileVault
